import Mathlib

/-!
# Verification of the GitHub trending crawler core

Shallow embedding of `app/crawler/github_crawler.py` (class
`GitHubTrendingCrawler`): the number/unit parser `_parse_number`, the
record extractor `_parse_repositories` / `_parse_single_repository` with
its field helpers, the retrying fetch loop of `fetch_trending`, and the
connectivity probe `health_check`.

Python strings are modelled as `String` / `List Char`; Python exceptions
as `Option` / `Except`; the network and the HTML-selector layer
(BeautifulSoup `find` / `find_all` results) as explicit data fed to the
pure extraction functions.
-/

namespace Crawler

/-! ## Python string primitives (ASCII model) -/

/-- The whitespace characters recognised by Python's `str.strip()` and the
regex class `\s`, restricted to ASCII (the model used throughout). -/
def isPySpace (c : Char) : Bool :=
  c = ' ' || c = '\t' || c = '\n' || c = '\r' || c = '\x0b' || c = '\x0c'

/-- Remove trailing characters satisfying `p` (the right half of Python's
`str.strip(chars)`). -/
def dropTrailing (p : Char → Bool) : List Char → List Char
  | [] => []
  | c :: cs =>
    match dropTrailing p cs with
    | [] => if p c then [] else [c]
    | r => c :: r

/-- Python `str.strip()` (ASCII whitespace model). -/
def pyTrim (cs : List Char) : List Char :=
  dropTrailing isPySpace (cs.dropWhile isPySpace)

/-- Python `str.strip('/')`: remove leading and trailing slashes. -/
def pyStripSlashes (cs : List Char) : List Char :=
  dropTrailing (fun c => c = '/') (cs.dropWhile (fun c => c = '/'))

/-- Python `str.strip()` lifted to `String`. -/
def pyStripStr (s : String) : String :=
  String.mk (pyTrim s.toList)

/-- ASCII model of Python `str.lower()` on one character. -/
def pyCharLower (c : Char) : Char :=
  match c with
  | 'A' => 'a' | 'B' => 'b' | 'C' => 'c' | 'D' => 'd' | 'E' => 'e'
  | 'F' => 'f' | 'G' => 'g' | 'H' => 'h' | 'I' => 'i' | 'J' => 'j'
  | 'K' => 'k' | 'L' => 'l' | 'M' => 'm' | 'N' => 'n' | 'O' => 'o'
  | 'P' => 'p' | 'Q' => 'q' | 'R' => 'r' | 'S' => 's' | 'T' => 't'
  | 'U' => 'u' | 'V' => 'v' | 'W' => 'w' | 'X' => 'x' | 'Y' => 'y'
  | 'Z' => 'z'
  | c => c

/-- `True` when the pattern (first argument) occurs at the start of the
text (second argument). -/
def leadsWith : List Char → List Char → Bool
  | [], _ => true
  | _ :: _, [] => false
  | p :: ps, c :: cs => p == c && leadsWith ps cs

/-- `True` when the pattern (first argument) occurs somewhere inside the
text (second argument); models Python's `in` on strings. -/
def containsSub (pat : List Char) : List Char → Bool
  | [] => pat.isEmpty
  | c :: cs => leadsWith pat (c :: cs) || containsSub pat cs

/-- Python `str.split(sep)` for a one-character separator: splits at every
occurrence, keeping empty pieces; the empty string yields `[[]]`. -/
def pySplitChar (sep : Char) : List Char → List (List Char)
  | [] => [[]]
  | c :: cs =>
    if c = sep then [] :: pySplitChar sep cs
    else
      match pySplitChar sep cs with
      | [] => [[c]]
      | g :: gs => (c :: g) :: gs

/-! ## The number/unit parser (`_parse_number`, lines 346-376)

Finite values of Python's `float(text)` are modelled by exact decimal
arithmetic: a parsed value is a sign plus `num * 10^exp / 10^scale`
with `num scale : ℕ` and `exp : ℤ`, and `int(...)` (truncation toward
zero) becomes natural division of the magnitude followed by the sign
(finite values are kept exact instead of being rounded to the nearest
binary double; on every value this development evaluates, the two
agree). The grammar covers what `float` accepts in ASCII: optional
surrounding whitespace, an optional sign, digits with medial
underscores and at most one decimal point, an optional exponent, and
the case-insensitive words `inf`, `infinity` and `nan`. A decimal
whose magnitude reaches the double overflow bound becomes the infinity
that `float()` returns for it.

The exception behaviour of `int(float(text) * multiplier)` is explicit
in `parseNumberChecked`: a grammar failure raises `ValueError` (caught
at line 375, so `_parse_number` returns 0), a NaN raises `ValueError`
at `int()` (also caught, 0), but an infinity raises `OverflowError` at
`int()`, which `except (ValueError, TypeError)` does not catch — the
error escapes `_parse_number`. Inside extraction that escaped error is
then swallowed by `_parse_single_repository`'s blanket `except` (line
279), so the affected entry is skipped; no real counter text reaches
that path, and the extraction model uses the value branch
`parse_number`. -/

/-- An exactly-represented finite decimal value
`(-1)^neg * num * 10^exp / 10^scale`. -/
structure DecVal where
  neg : Bool
  num : ℕ
  scale : ℕ
  exp : ℤ
  deriving Repr, DecidableEq

/-- The result of `float(str)`: a finite value, a signed infinity, or
NaN. -/
inductive PyFloat where
  | finite (v : DecVal) : PyFloat
  | inf (neg : Bool) : PyFloat
  | nan : PyFloat
  deriving Repr, DecidableEq

/-- Numeric value of a digit string, most significant digit first. -/
def digitsVal (cs : List Char) : ℕ :=
  cs.foldl (fun acc c => acc * 10 + (c.toNat - 48)) 0

/-- Consume a leading digit run in which single underscores may stand
between two digits (Python numeric-literal grouping); return the digits
without the underscores, and the remainder. A trailing or doubled
underscore is left in the remainder, where the grammar rejects it. -/
def takeDigitsU : List Char → List Char × List Char
  | [] => ([], [])
  | c :: '_' :: d :: rest =>
    if c.isDigit then
      if d.isDigit then
        let p := takeDigitsU (d :: rest)
        (c :: p.1, p.2)
      else ([c], '_' :: d :: rest)
    else ([], c :: '_' :: d :: rest)
  | c :: cs =>
    if c.isDigit then
      let p := takeDigitsU cs
      (c :: p.1, p.2)
    else ([], c :: cs)

/-- Unsigned decimal literal: digits with at most one point and at least
one digit in total (`"1."`, `".5"`, `"12"` are accepted, `"."` is
not); returns the numerator, the fractional length and the unconsumed
remainder (where an exponent may follow). -/
def decNumber (cs : List Char) : Option (ℕ × ℕ × List Char) :=
  let ip := takeDigitsU cs
  match ip.2 with
  | '.' :: r2 =>
    let fp := takeDigitsU r2
    if ip.1.isEmpty && fp.1.isEmpty then none
    else some (digitsVal ip.1 * 10 ^ fp.1.length + digitsVal fp.1,
      fp.1.length, fp.2)
  | _ => if ip.1.isEmpty then none else some (digitsVal ip.1, 0, ip.2)

/-- An optional exponent `e`/`E`, an optional sign, then at least one
digit; absent exponent is 0 with nothing consumed, a malformed one
(no digits after the marker) rejects the literal. -/
def expPart (cs : List Char) : Option (ℤ × List Char) :=
  match cs with
  | [] => some (0, [])
  | c :: r1 =>
    if c = 'e' ∨ c = 'E' then
      let sr : Bool × List Char :=
        match r1 with
        | '+' :: r => (false, r)
        | '-' :: r => (true, r)
        | _ => (false, r1)
      let ds := takeDigitsU sr.2
      if ds.1.isEmpty then none
      else
        some ((if sr.1 then -(digitsVal ds.1 : ℤ) else (digitsVal ds.1 : ℤ)),
          ds.2)
    else some (0, c :: r1)

/-- The smallest magnitude an IEEE-754 double rounds to infinity:
`2^1024 - 2^970`, the midpoint above the largest finite double
(round-to-nearest-even sends the midpoint itself to infinity). Written
as a numeral so that evaluating the parser never unfolds a large
exponentiation; `dblInfBound_eq` below checks it against the closed
form. -/
def dblInfBound : ℕ := 179769313486231580793728971405303415079934132710037826936173778980444968292764750946649017977587207096330286416692887910946555547851940402630657488671505820681908902000708383676273854845817711531764475730270069855571366959622842914819860834936475292719074168444365510704342711559699508093042880177904174497792

/-- Decidable equality for `Except`, so that concrete runs of the checked
parser can be evaluated inside proofs. -/
instance {α β : Type} [DecidableEq α] [DecidableEq β] :
    DecidableEq (Except α β) := fun a b =>
  match a, b with
  | Except.ok x, Except.ok y =>
    if h : x = y then isTrue (by rw [h])
    else isFalse (fun hc => h (Except.ok.inj hc))
  | Except.ok _, Except.error _ => isFalse (fun hc => Except.noConfusion hc)
  | Except.error _, Except.ok _ => isFalse (fun hc => Except.noConfusion hc)
  | Except.error x, Except.error y =>
    if h : x = y then isTrue (by rw [h])
    else isFalse (fun hc => h (Except.error.inj hc))

/-- `true` when `num * 10^exp / 10^scale` is at least `dblInfBound`,
i.e. when converting the exact decimal to a double overflows. -/
def dblOverflow (num scale : ℕ) (e : ℤ) : Bool :=
  let d : ℤ := e - (scale : ℤ)
  if 0 ≤ d then decide (dblInfBound ≤ num * 10 ^ d.toNat)
  else decide (dblInfBound * 10 ^ (-d).toNat ≤ num)

/-- Classify the unsigned body of a float literal: the words `inf`,
`infinity` and `nan` (case-insensitive), else the decimal grammar with
an optional exponent and nothing left over; a decimal whose magnitude
overflows the double range is the infinity `float()` returns. -/
def classify (neg : Bool) (body : List Char) : Option PyFloat :=
  let lowered := body.map pyCharLower
  if lowered = ("inf".toList) ∨ lowered = ("infinity".toList) then
    some (PyFloat.inf neg)
  else if lowered = ("nan".toList) then some PyFloat.nan
  else
    match decNumber body with
    | none => none
    | some m =>
      match expPart m.2.2 with
      | none => none
      | some ep =>
        if ep.2.isEmpty then
          if dblOverflow m.1 m.2.1 ep.1 then some (PyFloat.inf neg)
          else some (PyFloat.finite ⟨neg, m.1, m.2.1, ep.1⟩)
        else none

/-- Python `float(str)` over ASCII text (see the section comment): strip
whitespace, read an optional sign, classify the body; `none` is the
`ValueError` the caller catches. -/
def pyFloat (cs : List Char) : Option PyFloat :=
  let t := pyTrim cs
  match t with
  | '-' :: r => classify true r
  | '+' :: r => classify false r
  | _ => classify false t

/-- Truncation toward zero of
`(-1)^neg * (num * mult) * 10^exp / 10^scale`, i.e. Python's
`int(float(text) * multiplier)` on a finite exact decimal. -/
def truncScaled (v : DecVal) (mult : ℕ) : ℤ :=
  let mag : ℕ :=
    if 0 ≤ v.exp then v.num * mult * 10 ^ v.exp.toNat / 10 ^ v.scale
    else v.num * mult / (10 ^ v.scale * 10 ^ (-v.exp).toNat)
  if v.neg then -(mag : ℤ) else (mag : ℤ)

/-- Lines 358-362 of `_parse_number`: remove the thousands separators
(`text.replace(',', '')`) and lower-case the result. -/
def stripSeparatorsLower (cs : List Char) : List Char :=
  (cs.filter (fun c => c ≠ ',')).map pyCharLower

/-- Lines 363-370 of `_parse_number`: recognise a trailing (already
lower-cased) `k` or `m` unit; return the multiplier and the remainder. -/
def splitUnit (cs : List Char) : ℕ × List Char :=
  match cs.getLast? with
  | some 'k' => (1000, cs.dropLast)
  | some 'm' => (1000000, cs.dropLast)
  | _ => (1, cs)

/-- Body of `_parse_number` on a non-empty text, with the exception
behaviour explicit (see the section comment): `Except.ok 0` for the
caught `ValueError` paths (grammar failure, NaN), `Except.error` for
the uncaught `OverflowError` raised by `int()` on an infinity — either
a value `float()` already returned as infinite, or a finite value
whose product with the unit multiplier overflows. -/
def parseNumberChecked (cs : List Char) : Except String ℤ :=
  let p := splitUnit (stripSeparatorsLower cs)
  match pyFloat p.2 with
  | none => Except.ok 0
  | some PyFloat.nan => Except.ok 0
  | some (PyFloat.inf _) => Except.error ("OverflowError")
  | some (PyFloat.finite v) =>
    if dblOverflow (v.num * p.1) v.scale v.exp then
      Except.error ("OverflowError")
    else Except.ok (truncScaled v p.1)

/-- `GitHubTrendingCrawler._parse_number` (lines 346-376) in full, the
uncaught `OverflowError` surfaced as an `Except.error`; `if not text`
is the Python truthiness test, i.e. the empty string short-circuits
to 0. -/
def parse_number_checked (text : String) : Except String ℤ :=
  if text = "" then Except.ok 0 else parseNumberChecked text.toList

/-- The value branch of `parseNumberChecked`: the integer `_parse_number`
returns whenever it does not raise (the `OverflowError` path, which no
real counter text reaches, is mapped to 0 here; `parse_number_checked`
is the full embedding). -/
def parseNumberCore (cs : List Char) : ℤ :=
  match parseNumberChecked cs with
  | Except.ok v => v
  | Except.error _ => 0

/-- The returned-value fragment of `_parse_number` (lines 346-376), used
by the extraction layer. -/
def parse_number (text : String) : ℤ :=
  if text = "" then 0 else parseNumberCore text.toList

/-- The number parser as the specification states it (spec §4.1), with no
separate guard for the empty string: strip thousands separators,
recognise a trailing case-insensitive `k`/`m` unit, parse, truncate;
failure gives 0. -/
def parse_number_spec (text : String) : ℤ :=
  parseNumberCore text.toList

/-! ## The HTML article model

BeautifulSoup element selection is modelled by data: an `Article` records
what each selector used by `_parse_single_repository` would find inside
one `article.Box-row` fragment, and an `HtmlPage` is the list of such
fragments found by `find_all('article', class_='Box-row')`. An absent
element is `none`; an element's text is stored as the string
`get_text(strip=True)` would be computed from (stripping is applied by
the extraction functions). -/

/-- The `<a>` inside the title heading; `href` is `none` when the
attribute is missing (Python `get('href', '')` then supplies `''`). -/
structure LinkElem where
  href : Option String
  deriving Repr, DecidableEq

/-- The `h2.h3.lh-condensed` title heading and the link found in it. -/
structure TitleElem where
  link : Option LinkElem
  deriving Repr, DecidableEq

/-- The `span[itemprop=programmingLanguage]` element: its text, and the
`style` attribute of the preceding `span.repo-language-color` when that
span exists (`get('style', '')` already applied). -/
structure LangElem where
  text : String
  colorStyle : Option String
  deriving Repr, DecidableEq

/-- One `a.Link--muted` statistics link: `get('href', '')` and its
stripped text. -/
structure StatLink where
  href : String
  text : String
  deriving Repr, DecidableEq

/-- One `article.Box-row` fragment, as seen through the selectors of
`_parse_single_repository` (lines 201-281). `avatarSrc` is
`some none` when an `img.avatar` exists but has no `src` attribute. -/
structure Article where
  title : Option TitleElem
  descText : Option String
  lang : Option LangElem
  statLinks : List StatLink
  starsTodayText : Option String
  avatarSrc : Option (Option String)
  deriving Repr, DecidableEq

/-- An HTML document, represented by the `article.Box-row` fragments that
`find_all` locates in it (empty when the expected container is absent). -/
structure HtmlPage where
  articles : List Article
  deriving Repr, DecidableEq

/-- The extracted record (`TrendingRepository` of `app/schemas/trending.py`
as constructed at lines 263-277); `crawled_at`, a wall-clock timestamp,
is outside the model. -/
structure TrendingRepository where
  name : String
  url : String
  description : Option String
  stars : ℤ
  forks : ℤ
  language : Option String
  language_color : Option String
  stars_today : ℤ
  period_stars : ℤ
  owner : String
  repo_name : String
  avatar_url : Option String
  deriving Repr, DecidableEq

/-- The configured `settings.github_base_url` default. -/
def base_url : String := "https://github.com"

/-- Modelled subset of `urllib.parse.urljoin` for the calls in this
module: the base is an absolute URL without path or query
(`"https://github.com"`); an absolute second argument (one containing
`"://"`) wins, a scheme-relative `//...` second argument keeps the
base's `https` scheme, a path is attached to the base. -/
def urljoin (base path : String) : String :=
  if path = "" then base
  else if containsSub ("://".toList) path.toList then path
  else if leadsWith ("//".toList) path.toList then "https:" ++ path
  else if leadsWith ("/".toList) path.toList then base ++ path
  else base ++ "/" ++ path

/-! ## Regex helpers -/

/-- The part of the pattern `background-color:\s*([^;]+)` standing after
the literal: greedy `\s*`, then at least one non-`;` character, with the
single backtracking step the regex engine would take when everything
after the whitespace is `;` or the end. Returns the captured group. -/
def bgColorAfter (r : List Char) : Option (List Char) :=
  let w := r.takeWhile isPySpace
  let rest := r.drop w.length
  match rest with
  | c :: _ =>
    if c = ';' then
      match w.getLast? with
      | some x => some [x]
      | none => none
    else some (rest.takeWhile (fun c => c ≠ ';'))
  | [] =>
    match w.getLast? with
    | some x => some [x]
    | none => none

/-- `re.search(r'background-color:\s*([^;]+)', style)` (line 250): try the
full pattern at every position, left to right; return group 1. -/
def searchBgColor : List Char → Option (List Char)
  | [] => none
  | c :: cs =>
    if leadsWith ("background-color:".toList) (c :: cs) then
      match bgColorAfter ((c :: cs).drop 17) with
      | some g => some g
      | none => searchBgColor cs
    else searchBgColor cs

/-- The `(?:,\d+)*` part of the stars-today pattern: consume groups of a
comma followed by at least one digit; return them (with their commas)
and the remainder. Structural recursion on a fuel argument so that the
kernel can evaluate it; each step consumes at least two characters, so
any fuel at least half the length is exact. -/
def commaGroupsF : ℕ → List Char → List Char × List Char
  | 0, cs => ([], cs)
  | _ + 1, [] => ([], [])
  | f + 1, c :: rest =>
    if c = ',' then
      let ds := rest.takeWhile Char.isDigit
      if ds.isEmpty then ([], c :: rest)
      else
        let p := commaGroupsF f (rest.drop ds.length)
        (c :: (ds ++ p.1), p.2)
    else ([], c :: rest)

/-- The `(?:,\d+)*` part of the stars-today pattern with sufficient
fuel. -/
def commaGroups (cs : List Char) : List Char × List Char :=
  commaGroupsF cs.length cs

/-- Match `(\d+(?:,\d+)*)\s+stars?\s+today` at the start of `cs`; return
group 1 (the number with its thousands separators). The greedy
quantifiers here never backtrack: giving characters back always exposes
a character the next atom rejects. -/
def starsTodayAt (cs : List Char) : Option (List Char) :=
  let d1 := cs.takeWhile Char.isDigit
  if d1.isEmpty then none
  else
    let p := commaGroups (cs.drop d1.length)
    let ws := p.2.takeWhile isPySpace
    if ws.isEmpty then none
    else
      let r3 := p.2.drop ws.length
      if leadsWith ("star".toList) r3 then
        let r4 := r3.drop 4
        let r5 := if r4.head? = some 's' then r4.drop 1 else r4
        let ws2 := r5.takeWhile isPySpace
        if ws2.isEmpty then none
        else if leadsWith ("today".toList) (r5.drop ws2.length) then
          some (d1 ++ p.1)
        else none
      else none

/-- `re.search(r'(\d+(?:,\d+)*)\s+stars?\s+today', text)` (line 323):
try the pattern at every position, left to right; return group 1. -/
def searchStarsToday : List Char → Option (List Char)
  | [] => none
  | c :: cs =>
    match starsTodayAt (c :: cs) with
    | some g => some g
    | none => searchStarsToday cs

/-! ## Field extraction helpers -/

/-- One iteration of the `_parse_stats` loop (lines 298-305): a link
whose href contains `/stargazers` sets the star count, otherwise one
containing `/forks` sets the fork count. -/
def statStep (sf : ℤ × ℤ) (link : StatLink) : ℤ × ℤ :=
  if containsSub ("/stargazers".toList) link.href.toList then
    (parse_number link.text, sf.2)
  else if containsSub ("/forks".toList) link.href.toList then
    (sf.1, parse_number link.text)
  else sf

/-- `GitHubTrendingCrawler._parse_stats` (lines 283-307): walk the
`a.Link--muted` links in order, starting from `(0, 0)`; later links
overwrite earlier ones. -/
def parse_stats (a : Article) : ℤ × ℤ :=
  a.statLinks.foldl statStep (0, 0)

/-- `GitHubTrendingCrawler._parse_stars_today` (lines 309-327): search the
right-aligned counter's text for `<number> star(s) today` and parse the
captured number; 0 when the span or the pattern is absent. -/
def parse_stars_today (a : Article) : ℤ :=
  match a.starsTodayText with
  | some t =>
    match searchStarsToday (pyTrim t.toList) with
    | some g => parse_number (String.mk g)
    | none => 0
  | none => 0

/-- `GitHubTrendingCrawler._parse_avatar_url` (lines 329-344): the
`img.avatar` source resolved against the base URL; `None` when the
image, its `src`, or a non-empty `src` value is missing (`if src:` is a
truthiness test). -/
def parse_avatar_url (a : Article) : Option String :=
  match a.avatarSrc with
  | some (some src) => if src = "" then none else some (urljoin base_url src)
  | some none => none
  | none => none

/-- The language and colour extraction of lines 240-252: the language is
the tagged element's stripped text; the colour comes from applying the
`background-color` pattern to the preceding colour span's style. -/
def parse_language (a : Article) : Option String × Option String :=
  match a.lang with
  | none => (none, none)
  | some le =>
    let color :=
      match le.colorStyle with
      | none => none
      | some style =>
        match searchBgColor style.toList with
        | some g => some (pyStripStr (String.mk g))
        | none => none
    (some (pyStripStr le.text), color)

/-- `GitHubTrendingCrawler._parse_single_repository` (lines 201-281):
locate the title link, normalise its path, require exactly two path
segments, then assemble the record; any structural failure yields
`none` (the Python code returns `None` or catches the exception). -/
def parse_single_repository (a : Article) : Option TrendingRepository :=
  match a.title with
  | none => none
  | some t =>
    match t.link with
    | none => none
    | some link =>
      let repo_path := pyStripStr (link.href.getD "")
      if repo_path = "" then none
      else
        let repo_url := urljoin base_url repo_path
        let repo_name := String.mk (pyStripSlashes repo_path.toList)
        let parts := (pySplitChar '/' repo_name.toList).map String.mk
        if parts.length = 2 then
          let lc := parse_language a
          let sf := parse_stats a
          let st := parse_stars_today a
          some
            { name := repo_name
              url := repo_url
              description := a.descText.map pyStripStr
              stars := sf.1
              forks := sf.2
              language := lc.1
              language_color := lc.2
              stars_today := st
              period_stars := st
              owner := parts.getD 0 ""
              repo_name := parts.getD 1 ""
              avatar_url := parse_avatar_url a }
        else none

/-- `GitHubTrendingCrawler._parse_repositories` (lines 170-199): when the
expected container yields no articles, return the empty list (with a
logged warning); otherwise attempt each article independently, keeping
the successes in document order. -/
def parse_repositories (page : HtmlPage) : List TrendingRepository :=
  if page.articles.isEmpty then []
  else page.articles.filterMap parse_single_repository

/-! ## The retry orchestrator (`fetch_trending`, lines 69-117)

The network is an oracle `attempt : ℕ → Except String HtmlPage` giving,
for each attempt index, either the parsed document of a 200 response or
the raised error's message; `jitter i` is the value `random.uniform(0.5,
1.5)` would return before the retry following attempt `i`. The run
records the result, the number of attempts performed and the backoff
delays slept between attempts. -/

/-- Python truthiness limit test of line 98: `if limit and
len(repositories) > limit`. -/
def applyLimit (limit : ℕ) (l : List TrendingRepository) : List TrendingRepository :=
  if limit ≠ 0 ∧ limit < l.length then l.take limit else l

/-- Observable outcome of one `fetch_trending` call. -/
structure FetchRun where
  result : Except String (List TrendingRepository)
  attempts : ℕ
  delays : List ℚ
  deriving Repr

/-- The retry loop body: attempt index `i` with `r + 1` iterations left.
On success, parse and truncate; on failure at the last iteration,
re-raise; otherwise sleep `delay * 2 ^ i * jitter i` and continue. The
`r = 0` base case is the `for` loop running out, reachable only with
`max_retries = 0`, where Python returns `[]`. -/
def fetchAux (delay : ℚ) (jitter : ℕ → ℚ) (limit : ℕ)
    (attempt : ℕ → Except String HtmlPage) : ℕ → ℕ → FetchRun
  | _, 0 => ⟨Except.ok [], 0, []⟩
  | i, r + 1 =>
    match attempt i with
    | Except.ok page =>
      ⟨Except.ok (applyLimit limit (parse_repositories page)), 1, []⟩
    | Except.error e =>
      if r = 0 then ⟨Except.error e, 1, []⟩
      else
        let d := delay * 2 ^ i * jitter i
        let rest := fetchAux delay jitter limit attempt (i + 1) r
        ⟨rest.result, rest.attempts + 1, d :: rest.delays⟩

/-- `GitHubTrendingCrawler.fetch_trending` (lines 69-117): up to
`max_retries` attempts starting at index 0. -/
def fetch_trending (delay : ℚ) (jitter : ℕ → ℚ) (max_retries limit : ℕ)
    (attempt : ℕ → Except String HtmlPage) : FetchRun :=
  fetchAux delay jitter limit attempt 0 max_retries

/-- Mean of the uniform distribution on `[a, b]`. -/
def uniformMean (a b : ℚ) : ℚ := (a + b) / 2

/-- Expected pre-retry backoff before the retry that follows attempt `i`:
`delay * 2 ^ i` times the mean jitter. -/
def expectedBackoff (delay : ℚ) (i : ℕ) : ℚ :=
  delay * 2 ^ i * uniformMean (1 / 2) (3 / 2)

/-! ## The connectivity probe (`health_check`, lines 393-419) -/

/-- The dictionary returned by `health_check`; `response_time` and
`error` are the keys only some branches set. -/
structure HealthStatus where
  status : String
  github_accessible : Bool
  response_time : Option String
  error : Option String
  deriving Repr, DecidableEq

/-- `GitHubTrendingCrawler.health_check` (lines 393-419) over the outcome
of its single GET of the base URL: either a status code with the
optional `X-Response-Time` header, or the raised error's message. -/
def health_check (outcome : Except String (ℕ × Option String)) : HealthStatus :=
  match outcome with
  | Except.ok (st, rt) =>
    if st = 200 then
      ⟨"healthy", true, rt, none⟩
    else
      ⟨"unhealthy", false, none, some ("HTTP " ++ toString st)⟩
  | Except.error e => ⟨"unhealthy", false, none, some e⟩

/-! ## Helper lemmas -/

/-- `dropTrailing` only removes elements. -/
theorem dropTrailing_sublist (p : Char → Bool) (l : List Char) :
    (dropTrailing p l).Sublist l := by
  induction l with
  | nil => exact List.Sublist.refl []
  | cons c cs ih =>
    rw [dropTrailing]
    cases h : dropTrailing p cs with
    | nil =>
      dsimp only
      split
      · exact List.nil_sublist _
      · exact List.cons_sublist_cons.2 (List.nil_sublist cs)
    | cons x xs =>
      dsimp only
      exact List.cons_sublist_cons.2 (h ▸ ih)

/-- A non-empty right-stripped list keeps its head. -/
theorem dropTrailing_head? (p : Char → Bool) (l : List Char)
    (h : dropTrailing p l ≠ []) : (dropTrailing p l).head? = l.head? := by
  cases l with
  | nil => exact absurd rfl h
  | cons c cs =>
    rw [dropTrailing] at h ⊢
    cases hcs : dropTrailing p cs with
    | nil =>
      rw [hcs] at h
      dsimp only at h ⊢
      split at h
      · exact absurd rfl h
      · rename_i hp
        rw [if_neg hp]
        rfl
    | cons x xs => rfl

/-- The last element of a right-stripped list never satisfies `p`. -/
theorem dropTrailing_getLast? (p : Char → Bool) (l : List Char) (c : Char)
    (h : (dropTrailing p l).getLast? = some c) : p c = false := by
  induction l with
  | nil => simp [dropTrailing] at h
  | cons x cs ih =>
    rw [dropTrailing] at h
    cases hcs : dropTrailing p cs with
    | nil =>
      rw [hcs] at h
      dsimp only at h
      split at h
      · simp at h
      · rename_i hp
        simp at h
        subst h
        exact Bool.eq_false_iff.2 hp
    | cons y ys =>
      rw [hcs] at h
      rw [List.getLast?_cons_cons] at h
      exact ih (hcs ▸ h)

/-- The head of `dropWhile p` never satisfies `p`. -/
theorem head?_dropWhile (p : Char → Bool) (l : List Char) (c : Char)
    (h : (l.dropWhile p).head? = some c) : p c = false := by
  induction l with
  | nil => simp at h
  | cons x cs ih =>
    rw [List.dropWhile_cons] at h
    split at h
    · exact ih h
    · rename_i hp
      simp at h
      subst h
      exact Bool.eq_false_iff.2 hp

/-- Splitting never yields an empty list of pieces. -/
theorem pySplitChar_ne_nil (sep : Char) (l : List Char) :
    pySplitChar sep l ≠ [] := by
  cases l with
  | nil => simp [pySplitChar]
  | cons c cs =>
    rw [pySplitChar]
    split
    · simp
    · cases h : pySplitChar sep cs with
      | nil => simp
      | cons g gs => simp

/-- One piece means no separator: the piece is the whole list. -/
theorem pySplitChar_singleton (sep : Char) (l a : List Char)
    (h : pySplitChar sep l = [a]) : l = a := by
  induction l generalizing a with
  | nil =>
    rw [pySplitChar] at h
    simp at h
    exact h.symm
  | cons c cs ih =>
    rw [pySplitChar] at h
    split at h
    · have := pySplitChar_ne_nil sep cs
      simp at h
      exact absurd h.2 this
    · cases hcs : pySplitChar sep cs with
      | nil => exact absurd hcs (pySplitChar_ne_nil sep cs)
      | cons g gs =>
        rw [hcs] at h
        dsimp only at h
        simp at h
        obtain ⟨⟨rfl, rfl⟩, rfl⟩ := h
        rw [ih g (by rw [hcs])]

/-- Two pieces mean exactly one separator between them. -/
theorem pySplitChar_pair (sep : Char) (l a b : List Char)
    (h : pySplitChar sep l = [a, b]) : l = a ++ sep :: b := by
  induction l generalizing a b with
  | nil =>
    rw [pySplitChar] at h
    simp at h
  | cons c cs ih =>
    rw [pySplitChar] at h
    split at h
    · rename_i hc
      simp at h
      obtain ⟨rfl, h2⟩ := h
      rw [hc, ← pySplitChar_singleton sep cs b h2]
      rfl
    · cases hcs : pySplitChar sep cs with
      | nil => exact absurd hcs (pySplitChar_ne_nil sep cs)
      | cons g gs =>
        rw [hcs] at h
        dsimp only at h
        simp at h
        obtain ⟨⟨rfl, rfl⟩, rfl⟩ := h
        rw [ih g b (by rw [hcs])]
        rfl

/-- The length of a `filterMap` counts the inputs mapped to `some`. -/
theorem length_filterMap_eq_countP {α β : Type} (f : α → Option β) (l : List α) :
    (l.filterMap f).length = l.countP (fun a => (f a).isSome) := by
  induction l with
  | nil => rfl
  | cons c cs ih =>
    rw [List.filterMap_cons, List.countP_cons]
    cases h : f c <;> simp [h, ih]

/-! ## C1 and C4: the number parser -/

set_option maxRecDepth 8192 in
/-- The numeral `dblInfBound` is the closed form `2 ^ 1024 - 2 ^ 970`. -/
theorem dblInfBound_eq : dblInfBound = 2 ^ 1024 - 2 ^ 970 := by
  norm_num [dblInfBound]

/-- Non-empty input makes `parse_number` and the reference definition
literally the same computation. -/
theorem parse_number_eq_spec (text : String) :
    parse_number text = parse_number_spec text := by
  by_cases h : text = ""
  · subst h; decide
  · simp [parse_number, parse_number_spec, h]

/-- C1: The number/unit parser matches its reference definition: it
strips thousands separators, applies a trailing case-insensitive `k`
(×1,000) or `m` (×1,000,000) suffix, and truncates (does not round)
fractional results; in particular `parse("1,234") = 1234`,
`parse("2.3k") = 2300`, `parse("1.5m") = 1500000`, `parse("") = 0` and
`parse("abc") = 0`. The last two conjuncts exhibit truncation: `1.2345k`
gives 1234 (not 1235) and `2.9` gives 2 (not 3). -/
theorem c1_number_parser_reference :
    (∀ text : String, parse_number text = parse_number_spec text)
    ∧ parse_number ("1,234") = 1234
    ∧ parse_number ("2.3k") = 2300
    ∧ parse_number ("1.5m") = 1500000
    ∧ parse_number ("") = 0
    ∧ parse_number ("abc") = 0
    ∧ parse_number ("2.3K") = 2300
    ∧ parse_number ("1.5M") = 1500000
    ∧ parse_number ("1.2345k") = 1234
    ∧ parse_number ("2.9") = 2 :=
  ⟨parse_number_eq_spec, by decide, by decide, by decide, by decide,
    by decide, by decide, by decide, by decide, by decide⟩

/-- The only error `_parse_number` lets escape is the `OverflowError`
from `int()` on an infinite float. -/
theorem parseNumberChecked_error (cs : List Char) (e : String)
    (h : parseNumberChecked cs = Except.error e) : e = "OverflowError" := by
  rw [parseNumberChecked] at h
  try dsimp only at h
  repeat' split at h
  all_goals first
    | exact Except.noConfusion h
    | exact (Except.error.inj h).symm

set_option maxRecDepth 4096 in
/-- Counterexample for C4 as stated: the parser does not return an
integer for every input string. On `"inf"` (likewise `"infinity"`,
`"1e999"`) the parsed float is infinite, so `int()` raises
`OverflowError`, which `except (ValueError, TypeError)` at line 375
does not catch: the error escapes `_parse_number`. -/
theorem c4_overflow_counterexample :
    (¬ ∀ text : String, ∃ n : ℤ, parse_number_checked text = Except.ok n)
    ∧ parse_number_checked ("inf") = Except.error ("OverflowError")
    ∧ parse_number_checked ("1e999") = Except.error ("OverflowError") := by
  refine ⟨?_, by decide, by decide⟩
  intro hall
  obtain ⟨n, hn⟩ := hall ("inf")
  rw [show parse_number_checked ("inf") = Except.error ("OverflowError")
    from by decide] at hn
  exact Except.noConfusion hn

/-- C4 (amended): For every input string, `_parse_number` either raises
`OverflowError` — exactly when the successfully parsed float, scaled
by the unit multiplier, is infinite — or returns an integer, namely
the value `parse_number` computes; every caught parse failure (the
empty string, a non-numeric remainder, and NaN, which `int()` rejects
with a `ValueError` at line 375) yields 0 rather than an error. -/
theorem c4_parser_default_zero_amended :
    (∀ text : String,
        parse_number_checked text = Except.error ("OverflowError")
        ∨ parse_number_checked text = Except.ok (parse_number text))
    ∧ (∀ text : String,
        pyFloat (splitUnit (stripSeparatorsLower text.toList)).2 = none →
          parse_number_checked text = Except.ok 0)
    ∧ (∀ text : String,
        pyFloat (splitUnit (stripSeparatorsLower text.toList)).2
            = some PyFloat.nan →
          parse_number_checked text = Except.ok 0)
    ∧ (∀ (text : String) (b : Bool),
        pyFloat (splitUnit (stripSeparatorsLower text.toList)).2
            = some (PyFloat.inf b) →
          parse_number_checked text = Except.error ("OverflowError"))
    ∧ parse_number_checked ("") = Except.ok 0 := by
  refine ⟨?_, ?_, ?_, ?_, by decide⟩
  · intro text
    cases hc : parse_number_checked text with
    | error e =>
      have he : e = "OverflowError" := by
        by_cases h : text = ""
        · rw [parse_number_checked, if_pos h] at hc
          exact Except.noConfusion hc
        · rw [parse_number_checked, if_neg h] at hc
          exact parseNumberChecked_error _ e hc
      subst he
      exact Or.inl rfl
    | ok v =>
      refine Or.inr ?_
      congr 1
      by_cases h : text = ""
      · rw [parse_number_checked, if_pos h] at hc
        rw [parse_number, if_pos h]
        exact (Except.ok.inj hc).symm
      · rw [parse_number_checked, if_neg h] at hc
        rw [parse_number, if_neg h, parseNumberCore, hc]
  · intro text hv
    by_cases h : text = ""
    · rw [parse_number_checked, if_pos h]
    · rw [parse_number_checked, if_neg h, parseNumberChecked]
      try dsimp only
      rw [hv]
  · intro text hv
    by_cases h : text = ""
    · rw [parse_number_checked, if_pos h]
    · rw [parse_number_checked, if_neg h, parseNumberChecked]
      try dsimp only
      rw [hv]
  · intro text b hv
    by_cases h : text = ""
    · subst h
      rw [show pyFloat
          (splitUnit (stripSeparatorsLower ("").toList)).2 = none
        from by decide] at hv
      exact Option.noConfusion hv
    · rw [parse_number_checked, if_neg h, parseNumberChecked]
      try dsimp only
      rw [hv]

/-- Witness for the amended C4 at concrete inputs: a caught failure, a
NaN, and the escaping overflow. -/
theorem c4_witness :
    parse_number_checked ("abc") = Except.ok 0
    ∧ parse_number_checked ("nan") = Except.ok 0
    ∧ parse_number_checked ("inf") = Except.error ("OverflowError") := by
  have h := c4_parser_default_zero_amended
  exact ⟨h.2.1 ("abc") (by decide), h.2.2.1 ("nan") (by decide),
    h.2.2.2.1 ("inf") false (by decide)⟩

/-! ## C2: retry exhaustion -/

/-- When every attempt fails, the retry loop starting at attempt `i` with
`r + 1` iterations left performs all of them, sleeps the exponential
backoff before each retry, and ends with the last error. -/
theorem fetchAux_all_fail (delay : ℚ) (jitter : ℕ → ℚ) (limit : ℕ)
    (err : ℕ → String) (attempt : ℕ → Except String HtmlPage)
    (hfail : ∀ i, attempt i = Except.error (err i)) :
    ∀ r i, fetchAux delay jitter limit attempt i (r + 1) =
      ⟨Except.error (err (i + r)), r + 1,
        (List.range r).map (fun t => delay * 2 ^ (i + t) * jitter (i + t))⟩ := by
  intro r
  induction r with
  | zero =>
    intro i
    rw [fetchAux, hfail i]
    rfl
  | succ n ih =>
    intro i
    rw [fetchAux, hfail i]
    dsimp only
    rw [if_neg (Nat.succ_ne_zero n), ih (i + 1)]
    simp only [FetchRun.mk.injEq]
    refine ⟨by rw [show i + 1 + n = i + (n + 1) from by omega], trivial, ?_⟩
    rw [List.range_succ_eq_map, List.map_cons, List.map_map]
    rw [Nat.add_zero]
    refine congrArg _ ?_
    refine List.map_congr_left ?_
    intro t _
    rw [Function.comp_apply, show i + 1 + t = i + Nat.succ t from by omega]

/-- C2: With `max_retries = K ≥ 1` and every attempt failing,
`fetch_trending` performs exactly K attempts, propagates the last
attempt's error with no partial result, sleeps
`delay * 2 ^ i * jitter i` before each retry `i < K - 1`, each such
delay lying in `[delay * 2 ^ i / 2, delay * 2 ^ i * 3 / 2]` when the
jitter is drawn from `[0.5, 1.5]`, and the expected backoff (mean
jitter 1) is monotonically non-decreasing in the attempt index. -/
theorem c2_retry_exhaustion (delay : ℚ) (jitter : ℕ → ℚ) (K limit : ℕ)
    (err : ℕ → String) (attempt : ℕ → Except String HtmlPage)
    (hK : 1 ≤ K) (hfail : ∀ i, attempt i = Except.error (err i))
    (hdelay : 0 ≤ delay) :
    (fetch_trending delay jitter K limit attempt).result
        = Except.error (err (K - 1))
    ∧ (fetch_trending delay jitter K limit attempt).attempts = K
    ∧ (fetch_trending delay jitter K limit attempt).delays
        = (List.range (K - 1)).map (fun i => delay * 2 ^ i * jitter i)
    ∧ (∀ i, 1 / 2 ≤ jitter i → jitter i ≤ 3 / 2 →
        delay * 2 ^ i * (1 / 2) ≤ delay * 2 ^ i * jitter i
        ∧ delay * 2 ^ i * jitter i ≤ delay * 2 ^ i * (3 / 2))
    ∧ (∀ i j, i ≤ j → expectedBackoff delay i ≤ expectedBackoff delay j) := by
  obtain ⟨r, rfl⟩ : ∃ r, K = r + 1 := ⟨K - 1, by omega⟩
  rw [fetch_trending, fetchAux_all_fail delay jitter limit err attempt hfail r 0]
  have hpow : ∀ i : ℕ, (0 : ℚ) ≤ delay * 2 ^ i := fun i =>
    mul_nonneg hdelay (pow_nonneg (by norm_num) i)
  refine ⟨by simp, rfl, by simp, ?_, ?_⟩
  · intro i h1 h2
    exact ⟨mul_le_mul_of_nonneg_left h1 (hpow i),
      mul_le_mul_of_nonneg_left h2 (hpow i)⟩
  · intro i j hij
    have hmean : uniformMean (1 / 2) (3 / 2) = 1 := by norm_num [uniformMean]
    rw [expectedBackoff, expectedBackoff, hmean, mul_one, mul_one]
    exact mul_le_mul_of_nonneg_left
      (pow_le_pow_right₀ (by norm_num) hij) hdelay

/-- Witness for C2: three attempts, all failing. -/
theorem c2_witness :
    1 ≤ 3
    ∧ (fetch_trending 1 (fun _ => 1) 3 25
        (fun _ => Except.error ("boom"))).result = Except.error ("boom")
    ∧ (fetch_trending 1 (fun _ => 1) 3 25
        (fun _ => Except.error ("boom"))).attempts = 3 := by
  have h := c2_retry_exhaustion 1 (fun _ => 1) 3 25 (fun _ => "boom")
    (fun _ => Except.error ("boom")) (by decide) (fun _ => rfl) zero_le_one
  exact ⟨by decide, h.1, h.2.1⟩

/-! ## C3, C5, C7: extraction counts, limit truncation, structural drift -/

/-- C3: Extraction never raises (it is a total function) and, on a
document holding both well-formed and malformed entries, returns
exactly as many records as there are entries whose individual
extraction succeeds: each entry is attempted independently and a
failing one is skipped without aborting the rest. -/
theorem c3_extraction_skips_malformed (page : HtmlPage) :
    (parse_repositories page).length
      = page.articles.countP (fun a => (parse_single_repository a).isSome) := by
  rw [parse_repositories]
  split
  · rename_i h
    rw [List.isEmpty_iff.1 h]
    rfl
  · exact length_filterMap_eq_countP parse_single_repository page.articles

/-- A positive limit makes the truthiness-guarded truncation of line 98
an ordinary `take`. -/
theorem applyLimit_eq_take (limit : ℕ) (l : List TrendingRepository)
    (h : 1 ≤ limit) : applyLimit limit l = l.take limit := by
  rw [applyLimit]
  split
  · rfl
  · rename_i hn
    rw [not_and_or] at hn
    rcases hn with hn | hn
    · omega
    · exact (List.take_of_length_le (by omega)).symm

/-- A well-formed sample article: a title heading holding a link to the
given path, everything else absent. -/
def sampleArticle (path : String) : Article :=
  ⟨some ⟨some ⟨some path⟩⟩, none, none, [], none, none⟩

/-- A sample page with three well-formed entries. -/
def samplePage : HtmlPage :=
  ⟨[sampleArticle ("/a/b"), sampleArticle ("/c/d"), sampleArticle ("/e/f")]⟩

/-- C5: When the first attempt succeeds on a page and the limit is at
least 1, `fetch_trending` returns exactly the first
`min(limit, N)` extracted records, in extraction (document) order and
with no re-sorting — the result is literally `take limit` of the
extracted list — after a single attempt. -/
theorem c5_limit_truncation (delay : ℚ) (jitter : ℕ → ℚ) (K limit : ℕ)
    (attempt : ℕ → Except String HtmlPage) (page : HtmlPage)
    (hatt : attempt 0 = Except.ok page) (hK : 1 ≤ K) (hlim : 1 ≤ limit) :
    (fetch_trending delay jitter K limit attempt).result
        = Except.ok ((parse_repositories page).take limit)
    ∧ ((parse_repositories page).take limit).length
        = min limit (parse_repositories page).length
    ∧ (fetch_trending delay jitter K limit attempt).attempts = 1 := by
  obtain ⟨r, rfl⟩ : ∃ r, K = r + 1 := ⟨K - 1, by omega⟩
  rw [fetch_trending, fetchAux, hatt]
  exact ⟨congrArg Except.ok (applyLimit_eq_take limit _ hlim),
    List.length_take limit _, rfl⟩

/-- Witness for C5: limit 2 over a page yielding three records. -/
theorem c5_witness :
    (fetch_trending 1 (fun _ => 1) 3 2 (fun _ => Except.ok samplePage)).result
        = Except.ok ((parse_repositories samplePage).take 2)
    ∧ ((parse_repositories samplePage).take 2).length
        = min 2 (parse_repositories samplePage).length := by
  have h := c5_limit_truncation 1 (fun _ => 1) 3 2
    (fun _ => Except.ok samplePage) samplePage rfl (by decide) (by decide)
  exact ⟨h.1, h.2.1⟩

/-- C7: When the expected repeated list-item container is absent (no
articles found), extraction returns the empty list without raising, and
a successful fetch of such a drifted page is not retried: it succeeds
with an empty result after exactly one attempt and no backoff sleeps. -/
theorem c7_structural_drift (delay : ℚ) (jitter : ℕ → ℚ) (K limit : ℕ)
    (attempt : ℕ → Except String HtmlPage) (page : HtmlPage)
    (hempty : page.articles = []) (hatt : attempt 0 = Except.ok page)
    (hK : 1 ≤ K) :
    parse_repositories page = []
    ∧ (fetch_trending delay jitter K limit attempt).result = Except.ok []
    ∧ (fetch_trending delay jitter K limit attempt).attempts = 1
    ∧ (fetch_trending delay jitter K limit attempt).delays = [] := by
  have hparse : parse_repositories page = [] := by
    rw [parse_repositories, if_pos (List.isEmpty_iff.2 hempty)]
  obtain ⟨r, rfl⟩ : ∃ r, K = r + 1 := ⟨K - 1, by omega⟩
  rw [fetch_trending, fetchAux, hatt]
  dsimp only
  refine ⟨hparse, ?_, rfl, rfl⟩
  rw [hparse]
  simp [applyLimit]

/-- Witness for C7: an empty page on the first of three attempts. -/
theorem c7_witness :
    parse_repositories ⟨[]⟩ = []
    ∧ (fetch_trending 1 (fun _ => 1) 3 25
        (fun _ => Except.ok ⟨[]⟩)).result = Except.ok []
    ∧ (fetch_trending 1 (fun _ => 1) 3 25
        (fun _ => Except.ok ⟨[]⟩)).attempts = 1 := by
  have h := c7_structural_drift 1 (fun _ => 1) 3 25
    (fun _ => Except.ok ⟨[]⟩) ⟨[]⟩ rfl rfl (by decide)
  exact ⟨h.1, h.2.1, h.2.2.1⟩

/-! ## C6 and C10: invariants of emitted records -/

/-- Destructuring a successful single-repository extraction: the title
link existed, its normalised path was non-empty and split into exactly
two pieces, and the record is the one assembled at lines 263-277. -/
theorem parse_single_success (a : Article) (r : TrendingRepository)
    (h : parse_single_repository a = some r) :
    ∃ t link, a.title = some t ∧ t.link = some link ∧
      pyStripStr (link.href.getD "") ≠ "" ∧
      ((pySplitChar '/'
          (pyStripSlashes (pyStripStr (link.href.getD "")).toList)).map
        String.mk).length = 2 ∧
      r = { name := String.mk
              (pyStripSlashes (pyStripStr (link.href.getD "")).toList)
            url := urljoin base_url (pyStripStr (link.href.getD ""))
            description := a.descText.map pyStripStr
            stars := (parse_stats a).1
            forks := (parse_stats a).2
            language := (parse_language a).1
            language_color := (parse_language a).2
            stars_today := parse_stars_today a
            period_stars := parse_stars_today a
            owner := ((pySplitChar '/'
                (pyStripSlashes (pyStripStr (link.href.getD "")).toList)).map
              String.mk).getD 0 ""
            repo_name := ((pySplitChar '/'
                (pyStripSlashes (pyStripStr (link.href.getD "")).toList)).map
              String.mk).getD 1 ""
            avatar_url := parse_avatar_url a } := by
  rw [parse_single_repository] at h
  cases ht : a.title with
  | none =>
    rw [ht] at h
    exact absurd h (by simp)
  | some t =>
    rw [ht] at h
    dsimp only at h
    cases hl : t.link with
    | none =>
      rw [hl] at h
      exact absurd h (by simp)
    | some link =>
      rw [hl] at h
      dsimp only at h
      split at h
      · exact absurd h (by simp)
      · rename_i hne
        split at h
        · rename_i hlen
          exact ⟨t, link, rfl, hl, hne, hlen, (Option.some.inj h).symm⟩
        · exact absurd h (by simp)

/-- Membership in the extraction output comes from a successful
extraction of some article of the page. -/
theorem mem_parse_repositories (page : HtmlPage) (r : TrendingRepository)
    (hr : r ∈ parse_repositories page) :
    ∃ a ∈ page.articles, parse_single_repository a = some r := by
  rw [parse_repositories] at hr
  split at hr
  · exact absurd hr (by simp)
  · exact List.mem_filterMap.1 hr

/-- C6: Every record emitted by extraction has an identity of exactly two
non-empty path segments — its `name` is `owner ++ "/" ++ repo_name`
with both parts non-empty, and splitting `name` on `/` gives exactly
those two segments — and its `url` is the title link's path resolved
against the fixed base address (the path whose slash-stripping gave the
name). -/
theorem c6_identity_invariant (page : HtmlPage) (r : TrendingRepository)
    (hr : r ∈ parse_repositories page) :
    r.owner ≠ "" ∧ r.repo_name ≠ ""
    ∧ r.name = r.owner ++ "/" ++ r.repo_name
    ∧ (pySplitChar '/' r.name.toList).map String.mk = [r.owner, r.repo_name]
    ∧ ∃ path : String, path ≠ "" ∧ r.url = urljoin base_url path
        ∧ r.name = String.mk (pyStripSlashes path.toList) := by
  obtain ⟨a, _, ha⟩ := mem_parse_repositories page r hr
  obtain ⟨t, link, -, -, hne, hlen, rfl⟩ := parse_single_success a r ha
  rw [List.length_map] at hlen
  obtain ⟨x, y, hsp⟩ := List.length_eq_two.1 hlen
  have hu : pyStripSlashes (pyStripStr (link.href.getD "")).toList
      = x ++ '/' :: y := pySplitChar_pair '/' _ x y hsp
  have hxne : x ≠ [] := by
    intro hx
    subst hx
    rw [List.nil_append] at hu
    have hne' : pyStripSlashes (pyStripStr (link.href.getD "")).toList ≠ [] := by
      rw [hu]; simp
    have hh : (pyStripSlashes (pyStripStr (link.href.getD "")).toList).head?
        = ((pyStripStr (link.href.getD "")).toList.dropWhile
            (fun c => c = '/')).head? :=
      dropTrailing_head? (fun c => c = '/') _ hne'
    rw [hu] at hh
    have hfalse := head?_dropWhile (fun c => c = '/')
      ((pyStripStr (link.href.getD "")).toList) '/' hh.symm
    simp at hfalse
  have hyne : y ≠ [] := by
    intro hy
    subst hy
    have hlast : (pyStripSlashes
        (pyStripStr (link.href.getD "")).toList).getLast? = some '/' := by
      rw [hu]
      exact List.getLast?_concat x
    have hfalse := dropTrailing_getLast? (fun c => c = '/')
      ((pyStripStr (link.href.getD "")).toList.dropWhile (fun c => c = '/'))
      '/' hlast
    simp at hfalse
  have howner : ((pySplitChar '/'
      (pyStripSlashes (pyStripStr (link.href.getD "")).toList)).map
        String.mk).getD 0 "" = String.mk x := by rw [hsp]; rfl
  have hrepo : ((pySplitChar '/'
      (pyStripSlashes (pyStripStr (link.href.getD "")).toList)).map
        String.mk).getD 1 "" = String.mk y := by rw [hsp]; rfl
  refine ⟨?_, ?_, ?_, ?_, pyStripStr (link.href.getD ""), hne, rfl, rfl⟩
  · dsimp only
    rw [howner]
    intro hc
    exact hxne (congrArg String.data hc)
  · dsimp only
    rw [hrepo]
    intro hc
    exact hyne (congrArg String.data hc)
  · dsimp only
    rw [howner, hrepo]
    apply String.ext
    rw [String.data_append, String.data_append]
    rw [show (String.mk x).data = x from rfl, show (String.mk y).data = y from rfl]
    rw [show ("/" : String).data = ['/'] from rfl, hu]
    simp
  · dsimp only
    rw [howner, hrepo]
    rw [show (String.mk (pyStripSlashes
      (pyStripStr (link.href.getD "")).toList)).toList
        = pyStripSlashes (pyStripStr (link.href.getD "")).toList from rfl]
    rw [hsp]
    rfl

/-- The record extracted from `sampleArticle "/a/b"`. -/
def sampleRecord : TrendingRepository :=
  ⟨"a/b", "https://github.com/a/b", none, 0, 0, none, none, 0, 0, "a", "b", none⟩

/-- Witness for C6 on a concrete one-entry page. -/
theorem c6_witness :
    sampleRecord.owner ≠ ""
    ∧ sampleRecord.name = sampleRecord.owner ++ "/" ++ sampleRecord.repo_name := by
  have h := c6_identity_invariant ⟨[sampleArticle ("/a/b")]⟩ sampleRecord (by decide)
  exact ⟨h.1, h.2.2.1⟩

/-- C10: In every record emitted by extraction, `period_stars` equals
`stars_today`: both are populated from the same parsed
`N stars today` counter, whatever the requested time range was. -/
theorem c10_period_stars_eq_stars_today (page : HtmlPage)
    (r : TrendingRepository) (hr : r ∈ parse_repositories page) :
    r.period_stars = r.stars_today := by
  obtain ⟨a, -, ha⟩ := mem_parse_repositories page r hr
  obtain ⟨t, link, -, -, -, -, rfl⟩ := parse_single_success a r ha
  rfl

/-- Witness for C10 on a concrete one-entry page. -/
theorem c10_witness : sampleRecord.period_stars = sampleRecord.stars_today :=
  c10_period_stars_eq_stars_today ⟨[sampleArticle ("/a/b")]⟩ sampleRecord
    (by decide)

/-! ## C8: the connectivity probe -/

/-- C8: The probe is a total function (it never raises past its own
boundary) of the outcome of its single request: it reports
`github_accessible = true` exactly on a 200 response, any other
outcome yields `github_accessible = false` together with a non-null
error detail, and a raised error is converted whole into the detail
string. -/
theorem c8_probe_never_raises (outcome : Except String (ℕ × Option String)) :
    ((health_check outcome).github_accessible = true
      ↔ ∃ rt, outcome = Except.ok (200, rt))
    ∧ ((health_check outcome).github_accessible = false →
        ∃ d, (health_check outcome).error = some d)
    ∧ (∀ e, outcome = Except.error e →
        health_check outcome = ⟨"unhealthy", false, none, some e⟩) := by
  cases outcome with
  | error e =>
    refine ⟨?_, ?_, ?_⟩
    · simp [health_check]
    · intro _
      exact ⟨e, rfl⟩
    · intro e' he
      rw [he]
      rfl
  | ok p =>
    obtain ⟨st, rt⟩ := p
    by_cases hst : st = 200
    · subst hst
      refine ⟨?_, ?_, ?_⟩
      · simp [health_check]
      · intro hfalse
        exact absurd hfalse (by simp [health_check])
      · intro e' he
        exact absurd he (by simp)
    · refine ⟨?_, ?_, ?_⟩
      · rw [health_check]
        simp [hst]
      · intro _
        exact ⟨"HTTP " ++ toString st, by rw [health_check]; simp [hst]⟩
      · intro e' he
        exact absurd he (by simp)

/-- Witness for C8 at a concrete transport failure. -/
theorem c8_witness :
    (health_check (Except.error ("connection refused"))).github_accessible
        = false
    ∧ ∃ d, (health_check (Except.error ("connection refused"))).error
        = some d := by
  have h := c8_probe_never_raises (Except.error ("connection refused"))
  exact ⟨rfl, h.2.1 rfl⟩

/-! ## C9: sign of the counter fields -/

/-- Lower-casing never produces a minus sign from another character. -/
theorem pyCharLower_ne_dash (c : Char) (h : c ≠ '-') : pyCharLower c ≠ '-' := by
  unfold pyCharLower
  split
  all_goals first | decide | exact h

/-- Removing separators and lower-casing keeps a text free of minus
signs. -/
theorem dash_not_mem_stripSeparatorsLower (cs : List Char)
    (h : ('-') ∉ cs) : ('-') ∉ stripSeparatorsLower cs := by
  rw [stripSeparatorsLower]
  intro hm
  obtain ⟨c, hcf, hc⟩ := List.mem_map.1 hm
  have hcs := List.mem_of_mem_filter hcf
  exact pyCharLower_ne_dash c (fun hq => h (hq ▸ hcs)) hc

/-- Dropping the unit suffix only removes characters. -/
theorem splitUnit_snd_sublist (cs : List Char) :
    ((splitUnit cs).2).Sublist cs := by
  rw [splitUnit]
  split
  · exact List.dropLast_sublist cs
  · exact List.dropLast_sublist cs
  · exact List.Sublist.refl cs

/-- Whitespace trimming only removes characters. -/
theorem pyTrim_sublist (cs : List Char) : (pyTrim cs).Sublist cs :=
  (dropTrailing_sublist isPySpace (cs.dropWhile isPySpace)).trans
    (List.dropWhile_sublist isPySpace)

/-- An unsigned body never classifies to a negative finite value. -/
theorem classify_finite_not_neg (body : List Char) (v : DecVal)
    (h : classify false body = some (PyFloat.finite v)) : v.neg = false := by
  rw [classify] at h
  try dsimp only at h
  repeat' split at h
  all_goals try exact Option.noConfusion h
  all_goals try exact PyFloat.noConfusion (Option.some.inj h)
  all_goals
    exact (congrArg DecVal.neg (PyFloat.finite.inj (Option.some.inj h))).symm

/-- A finite float parsed from a text holding no minus sign is not
negative. -/
theorem pyFloat_finite_not_neg (cs : List Char) (v : DecVal)
    (h : ('-') ∉ cs) (hv : pyFloat cs = some (PyFloat.finite v)) :
    v.neg = false := by
  have ht : ('-') ∉ pyTrim cs := fun hm => h ((pyTrim_sublist cs).subset hm)
  rw [pyFloat] at hv
  try dsimp only at hv
  split at hv
  · rename_i heq
    exact absurd (heq ▸ List.mem_cons_self '-' _) ht
  · exact classify_finite_not_neg _ v hv
  · exact classify_finite_not_neg _ v hv

/-- Truncation of a non-negative decimal value is non-negative. -/
theorem truncScaled_nonneg (v : DecVal) (mult : ℕ) (h : v.neg = false) :
    0 ≤ truncScaled v mult := by
  rw [truncScaled]
  try dsimp only
  rw [h, if_neg Bool.false_ne_true]
  exact Int.natCast_nonneg _

/-- The parser's returned value is non-negative on minus-free input. -/
theorem parseNumberCore_nonneg (cs : List Char) (h : ('-') ∉ cs) :
    0 ≤ parseNumberCore cs := by
  have hL := dash_not_mem_stripSeparatorsLower cs h
  have hp : ('-') ∉ (splitUnit (stripSeparatorsLower cs)).2 := fun hm =>
    hL ((splitUnit_snd_sublist (stripSeparatorsLower cs)).subset hm)
  rw [parseNumberCore]
  cases hc : parseNumberChecked cs with
  | error e => exact le_refl 0
  | ok v =>
    show 0 ≤ v
    rw [parseNumberChecked] at hc
    try dsimp only at hc
    split at hc
    · exact le_of_eq (Except.ok.inj hc)
    · exact le_of_eq (Except.ok.inj hc)
    · exact Except.noConfusion hc
    · rename_i w hw
      split at hc
      · exact Except.noConfusion hc
      · exact Except.ok.inj hc ▸
          truncScaled_nonneg w _ (pyFloat_finite_not_neg _ w hp hw)

/-- `_parse_number` is non-negative on minus-free input. -/
theorem parse_number_nonneg (text : String) (h : ('-') ∉ text.toList) :
    0 ≤ parse_number text := by
  by_cases he : text = ""
  · simp [parse_number, he]
  · rw [parse_number, if_neg he]
    exact parseNumberCore_nonneg text.toList h

/-- The stats fold keeps both counters non-negative when every link text
is minus-free. -/
theorem stats_foldl_nonneg (links : List StatLink)
    (h : ∀ l ∈ links, ('-') ∉ l.text.toList) :
    ∀ init : ℤ × ℤ, 0 ≤ init.1 → 0 ≤ init.2 →
      0 ≤ (links.foldl statStep init).1 ∧ 0 ≤ (links.foldl statStep init).2 := by
  induction links with
  | nil =>
    intro init h1 h2
    exact ⟨h1, h2⟩
  | cons l ls ih =>
    intro init h1 h2
    rw [List.foldl_cons]
    have hl := h l (List.mem_cons_self l ls)
    have hstep1 : 0 ≤ (statStep init l).1 := by
      rw [statStep]
      split
      · exact parse_number_nonneg l.text hl
      · split
        · exact h1
        · exact h1
    have hstep2 : 0 ≤ (statStep init l).2 := by
      rw [statStep]
      split
      · exact h2
      · split
        · exact parse_number_nonneg l.text hl
        · exact h2
    exact ih (fun x hx => h x (List.mem_cons_of_mem l hx))
      (statStep init l) hstep1 hstep2

/-- Every character of the captured comma-group run is a comma or a
digit. -/
theorem commaGroupsF_chars (f : ℕ) :
    ∀ cs c, c ∈ (commaGroupsF f cs).1 → c = ',' ∨ c.isDigit = true := by
  induction f with
  | zero =>
    intro cs c hc
    simp [commaGroupsF] at hc
  | succ f ih =>
    intro cs c hc
    cases cs with
    | nil => simp [commaGroupsF] at hc
    | cons x rest =>
      rw [commaGroupsF] at hc
      split at hc
      · rename_i hx
        dsimp only at hc
        split at hc
        · simp at hc
        · dsimp only at hc
          rcases List.mem_cons.1 hc with rfl | hc2
          · exact Or.inl hx
          · rcases List.mem_append.1 hc2 with hd | hp
            · exact Or.inr (List.mem_takeWhile_imp hd)
            · exact ih _ c hp
      · simp at hc

/-- Every character of the stars-today capture is a comma or a digit. -/
theorem starsTodayAt_chars (cs g : List Char) (h : starsTodayAt cs = some g) :
    ∀ c ∈ g, c = ',' ∨ c.isDigit = true := by
  rw [starsTodayAt] at h
  dsimp only at h
  repeat' split at h
  all_goals try exact Option.noConfusion h
  all_goals
    obtain rfl := Option.some.inj h
    intro c hc
    rcases List.mem_append.1 hc with hd | hp
  all_goals try exact Or.inr (List.mem_takeWhile_imp hd)
  all_goals exact commaGroupsF_chars _ _ c hp

/-- Every character of the searched stars-today capture is a comma or a
digit. -/
theorem searchStarsToday_chars (cs g : List Char)
    (h : searchStarsToday cs = some g) : ∀ c ∈ g, c = ',' ∨ c.isDigit = true := by
  induction cs with
  | nil => simp [searchStarsToday] at h
  | cons x rest ih =>
    rw [searchStarsToday] at h
    split at h
    · rename_i g' hg
      exact Option.some.inj h ▸ starsTodayAt_chars (x :: rest) g' hg
    · exact ih h

/-- The period-stars field is always non-negative: the captured counter
consists of digits and commas, and an absent counter gives 0. -/
theorem parse_stars_today_nonneg (a : Article) : 0 ≤ parse_stars_today a := by
  rw [parse_stars_today]
  split
  · rename_i t _
    split
    · rename_i g hg
      refine parse_number_nonneg (String.mk g) ?_
      intro hm
      rcases searchStarsToday_chars _ g hg '-' hm with hc | hc
      · exact absurd hc (by decide)
      · exact absurd hc (by decide)
    · exact le_refl 0
  · exact le_refl 0

/-- An article whose stargazers counter carries a minus sign: extraction
emits a record with a negative star count. -/
def negStatArticle : Article :=
  ⟨some ⟨some ⟨some ("/a/b")⟩⟩, none, none,
    [⟨"/a/b/stargazers", "-5"⟩], none, none⟩

/-- Counterexample for C9 as stated: on the page holding
`negStatArticle`, not every emitted record has non-negative counters —
the emitted record's `stars` is `-5`. -/
theorem c9_counterexample :
    ¬ ∀ r ∈ parse_repositories ⟨[negStatArticle]⟩,
        0 ≤ r.stars ∧ 0 ≤ r.forks ∧ 0 ≤ r.period_stars := by decide

/-- C9 (amended): In every emitted record, `period_stars` (and
`stars_today`) is a non-negative integer, defaulting to 0 when the
counter is absent; `stars` and `forks` default to 0 when the counter
links are absent and are non-negative whenever the counter texts
contain no minus sign (the code puts the parsed value, whatever its
sign, into the record). -/
theorem c9_stats_nonneg_amended (a : Article) (r : TrendingRepository)
    (h : parse_single_repository a = some r)
    (htext : ∀ link ∈ a.statLinks, ('-') ∉ link.text.toList) :
    0 ≤ r.stars ∧ 0 ≤ r.forks ∧ 0 ≤ r.stars_today ∧ 0 ≤ r.period_stars
    ∧ (a.statLinks = [] → r.stars = 0 ∧ r.forks = 0)
    ∧ (a.starsTodayText = none → r.period_stars = 0) := by
  obtain ⟨t, link, -, -, -, -, rfl⟩ := parse_single_success a r h
  have hstats := stats_foldl_nonneg a.statLinks htext (0, 0)
    (le_refl 0) (le_refl 0)
  refine ⟨hstats.1, hstats.2, parse_stars_today_nonneg a,
    parse_stars_today_nonneg a, ?_, ?_⟩
  · intro hl
    dsimp only
    rw [parse_stats, hl]
    exact ⟨rfl, rfl⟩
  · intro hs
    dsimp only
    rw [parse_stars_today, hs]

/-- An article with well-formed, minus-free counters. -/
def posStatArticle : Article :=
  ⟨some ⟨some ⟨some ("/a/b")⟩⟩, none, none,
    [⟨"/a/b/stargazers", "1.2k"⟩, ⟨"/a/b/forks", "34"⟩],
    some ("3 stars today"), none⟩

/-- The record extracted from `posStatArticle`. -/
def posStatRecord : TrendingRepository :=
  ⟨"a/b", "https://github.com/a/b", none, 1200, 34, none, none, 3, 3,
    "a", "b", none⟩

/-- Witness for the amended C9 at a concrete well-formed article. -/
theorem c9_witness :
    0 ≤ posStatRecord.stars ∧ 0 ≤ posStatRecord.forks
    ∧ 0 ≤ posStatRecord.period_stars := by
  have h := c9_stats_nonneg_amended posStatArticle posStatRecord
    (by decide) (by decide)
  exact ⟨h.1, h.2.1, h.2.2.2.1⟩

end Crawler
